import Mathlib

/-!
Verification development for the FLUX//ID client state container
(`src/lib/store.ts`).  The store's data model and every mutation exposed by
`useStore` are embedded shallowly: TypeScript records become structures,
string-literal unions become inductives, `Partial<T>` update arguments become
structures of `Option` fields (a `none` field is an absent key), and plain JS
objects used as string maps become association lists.  JS array methods are
translated to their `List` counterparts; `Array.prototype.sort()` called with
no comparator (as in `markDayComplete`) compares elements as decimal strings,
which is modelled by sorting with the key `Nat.repr`.
-/

namespace FluxStore

/-- `PersonaMode` union from `store.ts`. -/
inductive PersonaMode
| professional
| playful
| minimal
deriving DecidableEq

/-- `Persona` record. -/
structure Persona where
  mode : PersonaMode
  colors : List String
deriving DecidableEq

/-- `Profile` record. -/
structure Profile where
  name : String
  role : String
  avatarSeed : String
  verified : Bool
  links : List String
deriving DecidableEq

/-- The `'img' | 'doc' | 'link'` union of `FolderItem.type`. -/
inductive ItemType
| img
| doc
| link
deriving DecidableEq

/-- `FolderItem` record; the optional `url?` field is an `Option`. -/
structure FolderItem where
  id : String
  name : String
  type : ItemType
  url : Option String
deriving DecidableEq

/-- The `'idle' | 'fetching' | 'ready'` union of `aiStatus`. -/
inductive AiStatus
| idle
| fetching
| ready
deriving DecidableEq

/-- The `'light' | 'dark' | 'brand'` union of `preferences.theme`. -/
inductive Theme
| light
| dark
| brand
deriving DecidableEq

/-- The `preferences` record. -/
structure Preferences where
  reduceMotion : Bool
  disableShaders : Bool
  theme : Theme
  soundEnabled : Bool
deriving DecidableEq

/-- A JS string-keyed object value that may be `undefined` (`none`).
`formData` has TypeScript type `Record<string, string>`, but at runtime a JS
object can hold `undefined` values, so entries carry `Option String`. -/
abbrev JsRecord := List (String × Option String)

/-- The data fields of the zustand store (the non-function part of `Store`). -/
structure StoreState where
  persona : Persona
  profile : Profile
  folderItems : List FolderItem
  formData : JsRecord
  aiStatus : AiStatus
  preferences : Preferences
  completedDays : List Nat
deriving DecidableEq

/-- `initialState` from `store.ts` lines 66–88. -/
def initialState : StoreState :=
  { persona := { mode := PersonaMode.professional
               , colors := ["#7C3AED", "#06B6D4", "#22C55E", "#F59E0B", "#EF4444"] }
  , profile := { name := "", role := "", avatarSeed := "", verified := false, links := [] }
  , folderItems := []
  , formData := []
  , aiStatus := AiStatus.idle
  , preferences := { reduceMotion := false, disableShaders := false
                   , theme := Theme.dark, soundEnabled := false }
  , completedDays := [] }

/-- `Partial<Persona>` argument of `setPersona`. -/
structure PersonaUpdate where
  mode : Option PersonaMode
  colors : Option (List String)

/-- `Partial<Profile>` argument of `setProfile`. -/
structure ProfileUpdate where
  name : Option String
  role : Option String
  avatarSeed : Option String
  verified : Option Bool
  links : Option (List String)

/-- `Partial<Store['preferences']>` argument of `setPreferences`. -/
structure PreferencesUpdate where
  reduceMotion : Option Bool
  disableShaders : Option Bool
  theme : Option Theme
  soundEnabled : Option Bool

/-- `setPersona: (p) => set((state) => ({ persona: { ...state.persona, ...p } }))`.
A field absent from the partial (`none`) keeps the state's value. -/
def setPersona (p : PersonaUpdate) (s : StoreState) : StoreState :=
  { s with persona := { mode := p.mode.getD s.persona.mode
                      , colors := p.colors.getD s.persona.colors } }

/-- `setProfile: (p) => set((state) => ({ profile: { ...state.profile, ...p } }))`. -/
def setProfile (p : ProfileUpdate) (s : StoreState) : StoreState :=
  { s with profile := { name := p.name.getD s.profile.name
                      , role := p.role.getD s.profile.role
                      , avatarSeed := p.avatarSeed.getD s.profile.avatarSeed
                      , verified := p.verified.getD s.profile.verified
                      , links := p.links.getD s.profile.links } }

/-- `addFolderItem: folderItems: [...state.folderItems.filter(i => i.id !== item.id), item]`.
The spread keeps the surviving items first and appends `item` at the end. -/
def addFolderItem (item : FolderItem) (s : StoreState) : StoreState :=
  { s with folderItems := (s.folderItems.filter (fun i => i.id ≠ item.id)) ++ [item] }

/-- `removeFolderItem: folderItems: state.folderItems.filter(i => i.id !== id)`. -/
def removeFolderItem (id : String) (s : StoreState) : StoreState :=
  { s with folderItems := s.folderItems.filter (fun i => i.id ≠ id) }

/-- JS object spread `{...a, ...b}`: keys of `a` keep their position but take
`b`'s value when `b` has the key; keys of `b` not in `a` are appended in
`b`'s order. -/
def objMerge (a b : JsRecord) : JsRecord :=
  (a.map (fun kv => (kv.1, match b.lookup kv.1 with
                           | some w => w
                           | none => kv.2))) ++
  b.filter (fun kv => (a.lookup kv.1).isNone)

/-- `setFormData: formData: { ...state.formData, ...Object.fromEntries(
Object.entries(data).filter(([_, v]) => v !== undefined)) }`. -/
def setFormData (data : JsRecord) (s : StoreState) : StoreState :=
  { s with formData := objMerge s.formData (data.filter (fun kv => kv.2.isSome)) }

/-- `setAiStatus: (aiStatus) => set({ aiStatus })`. -/
def setAiStatus (st : AiStatus) (s : StoreState) : StoreState :=
  { s with aiStatus := st }

/-- `setPreferences: preferences: { ...state.preferences, ...prefs }`. -/
def setPreferences (p : PreferencesUpdate) (s : StoreState) : StoreState :=
  { s with preferences := { reduceMotion := p.reduceMotion.getD s.preferences.reduceMotion
                          , disableShaders := p.disableShaders.getD s.preferences.disableShaders
                          , theme := p.theme.getD s.preferences.theme
                          , soundEnabled := p.soundEnabled.getD s.preferences.soundEnabled } }

/-- Strict lexicographic comparison of two code-unit sequences, as JS string
comparison (`<` on strings) performs it. -/
def lexLt : List Nat → List Nat → Bool
| [], [] => false
| [], _ :: _ => true
| _ :: _, [] => false
| a :: as, b :: bs => if a < b then true else if b < a then false else lexLt as bs

/-- The code units of the decimal string a JS number is converted to by the
default `Array.prototype.sort()` comparator. -/
def strKey (n : Nat) : List Nat := (Nat.repr n).data.map Char.toNat

/-- Order used by JS `Array.prototype.sort()` with no comparator on numbers:
`a` comes no later than `b` iff `String(b) < String(a)` is false. -/
def strle (a b : Nat) : Prop := lexLt (strKey b) (strKey a) = false

instance : DecidableRel strle := fun _ _ =>
  inferInstanceAs (Decidable (_ = false))

/-- The `completedDays` update of `markDayComplete`:
`state.completedDays.includes(day) ? state.completedDays
: [...state.completedDays, day].sort()`.  The comparator-less `.sort()`
orders numbers by their decimal-string representation. -/
def mdcDays (day : Nat) (days : List Nat) : List Nat :=
  if day ∈ days then days else List.insertionSort strle (days ++ [day])

/-- `markDayComplete` mutation on the whole state. -/
def markDayComplete (day : Nat) (s : StoreState) : StoreState :=
  { s with completedDays := mdcDays day s.completedDays }

/-- `reset: () => set(initialState)`: `initialState` provides every data
field, so the shallow merge performed by `set` replaces all of them. -/
def reset (_ : StoreState) : StoreState := initialState

/-- One call to one of the store's mutation operations, with its argument. -/
inductive Op
| setPersona (p : PersonaUpdate)
| setProfile (p : ProfileUpdate)
| addFolderItem (item : FolderItem)
| removeFolderItem (id : String)
| setFormData (data : JsRecord)
| setAiStatus (st : AiStatus)
| setPreferences (p : PreferencesUpdate)
| markDayComplete (day : Nat)
| reset

/-- Apply one mutation. -/
def applyOp (op : Op) (s : StoreState) : StoreState :=
  match op with
  | Op.setPersona p => setPersona p s
  | Op.setProfile p => setProfile p s
  | Op.addFolderItem item => addFolderItem item s
  | Op.removeFolderItem id => removeFolderItem id s
  | Op.setFormData data => setFormData data s
  | Op.setAiStatus st => setAiStatus st s
  | Op.setPreferences p => setPreferences p s
  | Op.markDayComplete day => markDayComplete day s
  | Op.reset => reset s

/-- The state reached from `initialState` by a sequence of mutations. -/
def runOps (ops : List Op) : StoreState :=
  ops.foldl (fun s op => applyOp op s) initialState

/-- The per-day selectors `useIsDay1Complete` … `useIsDay8Complete` are all
`state.completedDays.includes(n)` for a fixed `n`; this is their common
parameterisation. -/
def isDayComplete (n : Nat) (s : StoreState) : Bool :=
  s.completedDays.contains n

/-- An operation is "in range" when, if it is `markDayComplete d`, the day `d`
lies in `[1,8]`. -/
def opInRange : Op → Prop
| Op.markDayComplete d => 1 ≤ d ∧ d ≤ 8
| _ => True

/-- A concrete folder item used to exercise `addFolderItem`. -/
def itemA : FolderItem :=
  { id := "a", name := "Y", type := ItemType.doc, url := none }

/-- A second concrete folder item with a different `id`. -/
def itemB : FolderItem :=
  { id := "b", name := "B", type := ItemType.img, url := none }

/-! ### JSON serialization of the persisted subset

The persist middleware stores `partialize(state)` as JSON under the fixed key
`'flux-id-store'` and parses it back on load.  JSON values are modelled
abstractly; `JSON.stringify` omits object entries whose value is `undefined`
(the dropped `url?` field and any `undefined` entry of `formData`). -/

/-- Abstract JSON values, as exchanged through `JSON.stringify`/`JSON.parse`
by the persist middleware. -/
inductive Json
| null
| bool (b : Bool)
| num (n : Nat)
| str (s : String)
| arr (elems : List Json)
| obj (fields : List (String × Json))

/-- The persisted subset chosen by `partialize` (store.ts lines 134–141):
exactly six fields, `aiStatus` excluded. -/
structure PersistedState where
  persona : Persona
  profile : Profile
  folderItems : List FolderItem
  formData : JsRecord
  preferences : Preferences
  completedDays : List Nat
deriving DecidableEq

/-- `partialize: (state) => ({ persona, profile, folderItems, formData,
preferences, completedDays })`. -/
def partialize (s : StoreState) : PersistedState :=
  { persona := s.persona
  , profile := s.profile
  , folderItems := s.folderItems
  , formData := s.formData
  , preferences := s.preferences
  , completedDays := s.completedDays }

def encodeMode : PersonaMode → Json
| PersonaMode.professional => Json.str "professional"
| PersonaMode.playful => Json.str "playful"
| PersonaMode.minimal => Json.str "minimal"

def decodeMode : Json → Option PersonaMode
| Json.str "professional" => some PersonaMode.professional
| Json.str "playful" => some PersonaMode.playful
| Json.str "minimal" => some PersonaMode.minimal
| _ => none

def encodeTheme : Theme → Json
| Theme.light => Json.str "light"
| Theme.dark => Json.str "dark"
| Theme.brand => Json.str "brand"

def decodeTheme : Json → Option Theme
| Json.str "light" => some Theme.light
| Json.str "dark" => some Theme.dark
| Json.str "brand" => some Theme.brand
| _ => none

def encodeItemType : ItemType → Json
| ItemType.img => Json.str "img"
| ItemType.doc => Json.str "doc"
| ItemType.link => Json.str "link"

def decodeItemType : Json → Option ItemType
| Json.str "img" => some ItemType.img
| Json.str "doc" => some ItemType.doc
| Json.str "link" => some ItemType.link
| _ => none

def decodeStr : Json → Option String
| Json.str s => some s
| _ => none

def decodeBool : Json → Option Bool
| Json.bool b => some b
| _ => none

def decodeNum : Json → Option Nat
| Json.num n => some n
| _ => none

/-- Decode every element of a list, failing if any element fails. -/
def decodeList {α β : Type} (f : α → Option β) : List α → Option (List β)
| [] => some []
| x :: xs =>
  match f x with
  | none => none
  | some b =>
    match decodeList f xs with
    | none => none
    | some bs => some (b :: bs)

def decodeStrList : Json → Option (List String)
| Json.arr xs => decodeList decodeStr xs
| _ => none

def encodePersona (p : Persona) : Json :=
  Json.obj [("mode", encodeMode p.mode), ("colors", Json.arr (p.colors.map Json.str))]

def decodePersona (j : Json) : Option Persona :=
  match j with
  | Json.obj kvs => do
      let m ← (kvs.lookup "mode").bind decodeMode
      let c ← (kvs.lookup "colors").bind decodeStrList
      pure { mode := m, colors := c }
  | _ => none

def encodeProfile (p : Profile) : Json :=
  Json.obj [("name", Json.str p.name), ("role", Json.str p.role)
           , ("avatarSeed", Json.str p.avatarSeed), ("verified", Json.bool p.verified)
           , ("links", Json.arr (p.links.map Json.str))]

def decodeProfile (j : Json) : Option Profile :=
  match j with
  | Json.obj kvs => do
      let n ← (kvs.lookup "name").bind decodeStr
      let r ← (kvs.lookup "role").bind decodeStr
      let a ← (kvs.lookup "avatarSeed").bind decodeStr
      let v ← (kvs.lookup "verified").bind decodeBool
      let l ← (kvs.lookup "links").bind decodeStrList
      pure { name := n, role := r, avatarSeed := a, verified := v, links := l }
  | _ => none

/-- `JSON.stringify` omits the `url` entry when the optional field is absent. -/
def encodeFolderItem (it : FolderItem) : Json :=
  Json.obj ([("id", Json.str it.id), ("name", Json.str it.name)
            , ("type", encodeItemType it.type)] ++
            (match it.url with
             | some u => [("url", Json.str u)]
             | none => []))

def decodeFolderItem (j : Json) : Option FolderItem :=
  match j with
  | Json.obj kvs => do
      let i ← (kvs.lookup "id").bind decodeStr
      let n ← (kvs.lookup "name").bind decodeStr
      let t ← (kvs.lookup "type").bind decodeItemType
      pure { id := i, name := n, type := t, url := (kvs.lookup "url").bind decodeStr }
  | _ => none

/-- `JSON.stringify` drops `formData` entries holding `undefined`. -/
def encodeFormData (fd : JsRecord) : Json :=
  Json.obj (fd.filterMap (fun kv => kv.2.map (fun v => (kv.1, Json.str v))))

def decodeFormData : Json → Option JsRecord
| Json.obj kvs => decodeList (fun kv => (decodeStr kv.2).map (fun v => (kv.1, some v))) kvs
| _ => none

def encodePreferences (p : Preferences) : Json :=
  Json.obj [("reduceMotion", Json.bool p.reduceMotion)
           , ("disableShaders", Json.bool p.disableShaders)
           , ("theme", encodeTheme p.theme)
           , ("soundEnabled", Json.bool p.soundEnabled)]

def decodePreferences (j : Json) : Option Preferences :=
  match j with
  | Json.obj kvs => do
      let rm ← (kvs.lookup "reduceMotion").bind decodeBool
      let ds ← (kvs.lookup "disableShaders").bind decodeBool
      let th ← (kvs.lookup "theme").bind decodeTheme
      let se ← (kvs.lookup "soundEnabled").bind decodeBool
      pure { reduceMotion := rm, disableShaders := ds, theme := th, soundEnabled := se }
  | _ => none

/-- Serialize the persisted subset to JSON. -/
def encodePersisted (p : PersistedState) : Json :=
  Json.obj [("persona", encodePersona p.persona)
           , ("profile", encodeProfile p.profile)
           , ("folderItems", Json.arr (p.folderItems.map encodeFolderItem))
           , ("formData", encodeFormData p.formData)
           , ("preferences", encodePreferences p.preferences)
           , ("completedDays", Json.arr (p.completedDays.map Json.num))]

/-- Parse the persisted subset back from JSON; `none` on any shape mismatch. -/
def decodePersisted (j : Json) : Option PersistedState :=
  match j with
  | Json.obj kvs => do
      let pe ← (kvs.lookup "persona").bind decodePersona
      let pr ← (kvs.lookup "profile").bind decodeProfile
      let fi ← match kvs.lookup "folderItems" with
               | some (Json.arr xs) => decodeList decodeFolderItem xs
               | _ => none
      let fd ← (kvs.lookup "formData").bind decodeFormData
      let pf ← (kvs.lookup "preferences").bind decodePreferences
      let cd ← match kvs.lookup "completedDays" with
               | some (Json.arr xs) => decodeList decodeNum xs
               | _ => none
      pure { persona := pe, profile := pr, folderItems := fi
           , formData := fd, preferences := pf, completedDays := cd }
  | _ => none

/-- Modelled from the spec: the rehydration step of the persist middleware,
which lives in the zustand library rather than in this repository's sources.
The stored value under the fixed key is absent (`none`), unparsable JSON
(`some none`), or a parsed JSON value (`some (some j)`); any absent,
unparsable or shape-mismatched input falls back to the documented default
state, and no error escapes (the function is total). -/
def loadStore (stored : Option (Option Json)) : StoreState :=
  match stored with
  | none => initialState
  | some none => initialState
  | some (some j) =>
    match decodePersisted j with
    | none => initialState
    | some p =>
      { persona := p.persona, profile := p.profile, folderItems := p.folderItems
      , formData := p.formData, aiStatus := initialState.aiStatus
      , preferences := p.preferences, completedDays := p.completedDays }

/-- Modelled from the spec: a write to the storage backend that may fail
(quota exceeded, storage disabled); the middleware catches the failure and
surfaces nothing to the caller. -/
def persistWrite (result : Except String Unit) : Unit :=
  match result with
  | Except.ok _ => ()
  | Except.error _ => ()

/-! ### Lemmas about the `completedDays` update -/

theorem lexLt_asymm : ∀ x y : List Nat, lexLt x y = true → lexLt y x = false := by
  intro x
  induction x with
  | nil => intro y _; cases y <;> simp [lexLt]
  | cons a as ih =>
    intro y h
    cases y with
    | nil => simp [lexLt] at h
    | cons b bs =>
      simp only [lexLt] at h ⊢
      rcases Nat.lt_trichotomy a b with hab | hab | hab
      · simp [hab, Nat.not_lt.mpr (Nat.le_of_lt hab), Nat.lt_irrefl]
      · subst hab
        simp only [Nat.lt_irrefl, if_false] at h ⊢
        exact ih bs h
      · simp [hab, Nat.not_lt.mpr (Nat.le_of_lt hab)] at h

theorem lexLt_trichotomy : ∀ x y : List Nat,
    lexLt x y = true ∨ x = y ∨ lexLt y x = true := by
  intro x
  induction x with
  | nil => intro y; cases y <;> simp [lexLt]
  | cons a as ih =>
    intro y
    cases y with
    | nil => simp [lexLt]
    | cons b bs =>
      simp only [lexLt]
      rcases Nat.lt_trichotomy a b with hab | hab | hab
      · left; simp [hab]
      · subst hab
        simp only [Nat.lt_irrefl, if_false, List.cons.injEq, true_and]
        rcases ih bs with h | h | h
        · exact Or.inl h
        · exact Or.inr (Or.inl h)
        · exact Or.inr (Or.inr h)
      · right; right; simp [hab]

theorem lexLt_trans : ∀ x y z : List Nat,
    lexLt x y = true → lexLt y z = true → lexLt x z = true := by
  intro x
  induction x with
  | nil =>
    intro y z hxy hyz
    cases y with
    | nil => simp [lexLt] at hxy
    | cons b bs => cases z with
      | nil => simp [lexLt] at hyz
      | cons c cs => simp [lexLt]
  | cons a as ih =>
    intro y z hxy hyz
    cases y with
    | nil => simp [lexLt] at hxy
    | cons b bs =>
      cases z with
      | nil => simp [lexLt] at hyz
      | cons c cs =>
        simp only [lexLt] at hxy hyz ⊢
        rcases Nat.lt_trichotomy a b with hab | hab | hab
        · rcases Nat.lt_trichotomy b c with hbc | hbc | hbc
          · simp [Nat.lt_trans hab hbc]
          · subst hbc; simp [hab]
          · simp [hbc, Nat.not_lt.mpr (Nat.le_of_lt hbc), Nat.lt_irrefl] at hyz
        · subst hab
          rcases Nat.lt_trichotomy a c with hac | hac | hac
          · simp [hac]
          · subst hac
            simp only [Nat.lt_irrefl, if_false] at hxy hyz ⊢
            exact ih bs cs hxy hyz
          · simp [hac, Nat.not_lt.mpr (Nat.le_of_lt hac), Nat.lt_irrefl] at hyz
        · simp [hab, Nat.not_lt.mpr (Nat.le_of_lt hab), Nat.lt_irrefl] at hxy

instance : IsTotal Nat strle :=
  ⟨fun a b => by
    unfold strle
    cases h : lexLt (strKey b) (strKey a) with
    | false => exact Or.inl rfl
    | true => exact Or.inr (lexLt_asymm _ _ h)⟩

instance : IsTrans Nat strle :=
  ⟨fun a b c hab hbc => by
    unfold strle at *
    cases h : lexLt (strKey c) (strKey a) with
    | false => rfl
    | true =>
      rcases lexLt_trichotomy (strKey b) (strKey a) with h1 | h1 | h1
      · rw [h1] at hab; exact absurd hab (by simp)
      · rw [← h1] at h; rw [h] at hbc; exact absurd hbc (by simp)
      · have := lexLt_trans _ _ _ h h1
        rw [this] at hbc; exact absurd hbc (by simp)⟩


/-- On single-digit numbers the decimal-string order agrees with the numeric
order. -/
theorem strle_iff_le : ∀ a, a ≤ 9 → ∀ b, b ≤ 9 → (strle a b ↔ a ≤ b) := by decide

theorem mem_mdcDays {x d : Nat} {days : List Nat} :
    x ∈ mdcDays d days ↔ x = d ∨ x ∈ days := by
  unfold mdcDays
  by_cases h : d ∈ days
  · simp only [h, if_true]
    exact ⟨Or.inr, fun hx => hx.elim (fun e => e ▸ h) id⟩
  · simp only [h, if_false]
    rw [(List.perm_insertionSort strle (days ++ [d])).mem_iff]
    simp [List.mem_append, or_comm]

theorem sorted_strle_mdcDays {d : Nat} {days : List Nat}
    (h : days.Sorted strle) : (mdcDays d days).Sorted strle := by
  unfold mdcDays
  by_cases hm : d ∈ days
  · simpa [hm]
  · simpa [hm] using List.sorted_insertionSort strle (days ++ [d])

theorem nodup_mdcDays {d : Nat} {days : List Nat}
    (h : days.Nodup) : (mdcDays d days).Nodup := by
  unfold mdcDays
  by_cases hm : d ∈ days
  · simpa [hm]
  · simp only [hm, if_false]
    rw [(List.perm_insertionSort strle (days ++ [d])).nodup_iff]
    simp only [List.nodup_append, List.nodup_singleton, List.disjoint_singleton]
    exact ⟨h, trivial, hm⟩

theorem sorted_le_of_sorted_strle {l : List Nat} (hb : ∀ x ∈ l, x ≤ 9)
    (h : l.Sorted strle) : l.Sorted (· ≤ ·) :=
  List.Pairwise.imp_of_mem
    (fun ha hb' r => (strle_iff_le _ (hb _ ha) _ (hb _ hb')).mp r) h

/-- Folding `markDayComplete` over a list of store operations only touches
`completedDays` through `mdcDays`. -/
theorem runOps_map_markDayComplete (ds : List Nat) :
    (runOps (ds.map Op.markDayComplete)).completedDays =
      ds.foldl (fun l d => mdcDays d l) [] := by
  show ((ds.map Op.markDayComplete).foldl (fun s op => applyOp op s)
        initialState).completedDays = _
  rw [show ([] : List Nat) = initialState.completedDays from rfl]
  generalize initialState = s
  induction ds generalizing s with
  | nil => rfl
  | cons d ds ih => simpa [applyOp, markDayComplete] using ih (markDayComplete d s)

theorem foldl_mdcDays_mem (ds : List Nat) :
    ∀ (l : List Nat) (x : Nat),
      x ∈ ds.foldl (fun l d => mdcDays d l) l ↔ x ∈ ds ∨ x ∈ l := by
  induction ds with
  | nil => simp
  | cons d ds ih =>
    intro l x
    simp only [List.foldl_cons, ih, mem_mdcDays, List.mem_cons]
    tauto

theorem foldl_mdcDays_sorted (ds : List Nat) :
    ∀ l : List Nat, l.Sorted strle →
      (ds.foldl (fun l d => mdcDays d l) l).Sorted strle := by
  induction ds with
  | nil => exact fun _ h => h
  | cons d ds ih => exact fun l h => ih _ (sorted_strle_mdcDays h)

theorem foldl_mdcDays_nodup (ds : List Nat) :
    ∀ l : List Nat, l.Nodup →
      (ds.foldl (fun l d => mdcDays d l) l).Nodup := by
  induction ds with
  | nil => exact fun _ h => h
  | cons d ds ih => exact fun l h => ih _ (nodup_mdcDays h)

/-- `markDayComplete` with a day already present is a no-op. -/
theorem mdcDays_mem_eq {d : Nat} {days : List Nat} (h : d ∈ days) :
    mdcDays d days = days := by
  unfold mdcDays; simp [h]

/-! ### State-level invariants over arbitrary operation sequences -/

theorem completedDays_applyOp_nodup (op : Op) (s : StoreState)
    (h : s.completedDays.Nodup) : (applyOp op s).completedDays.Nodup := by
  cases op <;>
    simp only [applyOp, setPersona, setProfile, addFolderItem, removeFolderItem,
      setFormData, setAiStatus, setPreferences, markDayComplete, reset,
      initialState] <;>
    first
      | exact h
      | exact nodup_mdcDays h
      | exact List.nodup_nil

theorem completedDays_applyOp_range (op : Op) (s : StoreState)
    (hop : opInRange op) (h : ∀ x ∈ s.completedDays, 1 ≤ x ∧ x ≤ 8) :
    ∀ x ∈ (applyOp op s).completedDays, 1 ≤ x ∧ x ≤ 8 := by
  cases op <;>
    simp only [applyOp, setPersona, setProfile, addFolderItem, removeFolderItem,
      setFormData, setAiStatus, setPreferences, markDayComplete, reset,
      initialState] <;>
    try exact h
  case markDayComplete d =>
    intro x hx
    rcases mem_mdcDays.mp hx with rfl | hx
    · exact hop
    · exact h x hx
  case reset => intro x hx; simp at hx

theorem runOps_completedDays_nodup (ops : List Op) :
    (runOps ops).completedDays.Nodup := by
  show ((ops.foldl (fun s op => applyOp op s) initialState)).completedDays.Nodup
  have base : initialState.completedDays.Nodup := List.nodup_nil
  generalize initialState = s at base ⊢
  induction ops generalizing s with
  | nil => exact base
  | cons op ops ih => exact ih _ (completedDays_applyOp_nodup op s base)

theorem runOps_completedDays_range (ops : List Op)
    (hops : ∀ op ∈ ops, opInRange op) :
    ∀ x ∈ (runOps ops).completedDays, 1 ≤ x ∧ x ≤ 8 := by
  show ∀ x ∈ ((ops.foldl (fun s op => applyOp op s) initialState)).completedDays, _
  have base : ∀ x ∈ initialState.completedDays, 1 ≤ x ∧ x ≤ 8 := by
    intro x hx; simp [initialState] at hx
  generalize initialState = s at base ⊢
  induction ops generalizing s with
  | nil => exact base
  | cons op ops ih =>
    exact ih (fun o ho => hops o (List.mem_cons_of_mem _ ho)) _
      (completedDays_applyOp_range op s (hops op (List.mem_cons_self _ _)) base)

/-! ### Association-list helper lemmas for `objMerge` -/

theorem lookup_map_objMerge (b : JsRecord) (k : String) :
    ∀ a : JsRecord,
      (a.map (fun kv => (kv.1, match b.lookup kv.1 with
                               | some w => w
                               | none => kv.2))).lookup k
        = (a.lookup k).map (fun v => match b.lookup k with
                                     | some w => w
                                     | none => v) := by
  intro a
  induction a with
  | nil => rfl
  | cons p t ih =>
    obtain ⟨k0, v0⟩ := p
    simp only [List.map_cons, List.lookup]
    cases hk : (k == k0) with
    | true => rw [eq_of_beq hk]; rfl
    | false => exact ih

theorem lookup_filter_none (g : String × Option String → Bool) (k : String) :
    ∀ b : JsRecord, b.lookup k = none → (b.filter g).lookup k = none := by
  intro b
  induction b with
  | nil => intro _; rfl
  | cons p t ih =>
    obtain ⟨k0, v0⟩ := p
    intro h
    simp only [List.lookup] at h
    cases hk : (k == k0) with
    | true => rw [hk] at h; exact absurd h (by simp)
    | false =>
      rw [hk] at h
      rw [List.filter_cons]
      cases hg : g (k0, v0)
      · simpa using ih h
      · simpa [List.lookup, hk] using ih h

theorem lookup_filter_of_key (g : String × Option String → Bool) (k : String)
    (hg : ∀ kv : String × Option String, kv.1 = k → g kv = true) :
    ∀ b : JsRecord, (b.filter g).lookup k = b.lookup k := by
  intro b
  induction b with
  | nil => rfl
  | cons p t ih =>
    obtain ⟨k0, v0⟩ := p
    rw [List.filter_cons]
    cases hk : (k == k0) with
    | true =>
      rw [hg (k0, v0) (eq_of_beq hk).symm]
      simp only [if_true, List.lookup, hk]
    | false =>
      cases hg0 : g (k0, v0)
      · simpa [List.lookup, hk] using ih
      · simpa [List.lookup, hk] using ih

theorem lookup_filter_first (g : String × Option String → Bool) (k : String)
    (w : Option String) (hw : g (k, w) = true) :
    ∀ b : JsRecord, b.lookup k = some w → (b.filter g).lookup k = some w := by
  intro b
  induction b with
  | nil => intro h; exact absurd h (by simp)
  | cons p t ih =>
    obtain ⟨k0, v0⟩ := p
    intro h
    simp only [List.lookup] at h
    rw [List.filter_cons]
    cases hk : (k == k0) with
    | true =>
      rw [hk] at h
      have hv : v0 = w := by simpa using h
      subst hv
      rw [show g (k0, v0) = true from (eq_of_beq hk) ▸ hw]
      simp [List.lookup, hk]
    | false =>
      rw [hk] at h
      cases hg : g (k0, v0)
      · simpa using ih h
      · simpa [List.lookup, hk] using ih h

theorem mem_of_lookup (k : String) (w : Option String) :
    ∀ l : JsRecord, l.lookup k = some w → (k, w) ∈ l := by
  intro l
  induction l with
  | nil => intro h; exact absurd h (by simp)
  | cons p t ih =>
    obtain ⟨k0, v0⟩ := p
    intro h
    simp only [List.lookup] at h
    cases hk : (k == k0) with
    | true =>
      rw [hk] at h
      have hv : v0 = w := by simpa using h
      have hkk : k = k0 := eq_of_beq hk
      subst hv; subst hkk
      exact List.mem_cons_self _ _
    | false =>
      rw [hk] at h
      exact List.mem_cons_of_mem _ (ih h)

theorem lookup_objMerge_absent (a b : JsRecord) (k : String)
    (h : b.lookup k = none) : (objMerge a b).lookup k = a.lookup k := by
  unfold objMerge
  rw [List.lookup_append, lookup_map_objMerge, lookup_filter_none _ _ _ h, h]
  cases a.lookup k <;> rfl

theorem lookup_objMerge_present (a b : JsRecord) (k : String) (w : Option String)
    (h : b.lookup k = some w) : (objMerge a b).lookup k = some w := by
  unfold objMerge
  rw [List.lookup_append, lookup_map_objMerge, h]
  cases ha : a.lookup k with
  | some v => rfl
  | none =>
    simp only [Option.map_none', Option.none_or]
    rw [lookup_filter_of_key _ _ (fun kv hkv => by rw [hkv, ha]; rfl), h]

theorem objMerge_isSome (a b : JsRecord)
    (ha : ∀ kv ∈ a, kv.2.isSome = true) (hb : ∀ kv ∈ b, kv.2.isSome = true) :
    ∀ kv ∈ objMerge a b, kv.2.isSome = true := by
  intro kv hkv
  unfold objMerge at hkv
  rcases List.mem_append.mp hkv with hm | hm
  · rcases List.mem_map.mp hm with ⟨p, hp, rfl⟩
    cases hlb : b.lookup p.1 with
    | some w =>
      simp only [hlb]
      exact hb (p.1, w) (mem_of_lookup _ _ _ hlb)
    | none =>
      simp only [hlb]
      exact ha p hp
  · exact hb _ (List.mem_filter.mp hm).1

/-! ### Claim theorems -/

/-- C1 (counterexample): `addFolderItem` does not place the new item at the
front.  Adding item `a` to a folder holding item `b` yields `[b, a]`: the
new item sits at the back, so the head of the list is not the new item. -/
theorem addFolderItem_front_counterexample :
    (addFolderItem itemA { initialState with folderItems := [itemB] }).folderItems
      = [itemB, itemA] ∧
    (addFolderItem itemA { initialState with folderItems := [itemB] }).folderItems.head?
      ≠ some itemA := by
  constructor
  · rfl
  · decide

/-- C1 (amended): `addFolderItem(item)` removes any existing item with the
same `id` and appends the new item at the back of the list; afterwards the
folder contains exactly one item with that `id`, bearing the newest fields,
and every item with a different `id` is untouched. -/
theorem addFolderItem_upsert (s : StoreState) (item : FolderItem) :
    (addFolderItem item s).folderItems.filter (fun i => i.id = item.id) = [item] ∧
    (addFolderItem item s).folderItems.filter (fun i => i.id ≠ item.id)
      = s.folderItems.filter (fun i => i.id ≠ item.id) ∧
    (addFolderItem item s).folderItems.getLast? = some item := by
  refine ⟨?_, ?_, ?_⟩
  · show ((s.folderItems.filter (fun i => i.id ≠ item.id)) ++ [item]).filter
        (fun i => i.id = item.id) = [item]
    rw [List.filter_append, List.filter_filter]
    have h1 : s.folderItems.filter
        (fun i => decide (i.id = item.id) && decide (i.id ≠ item.id)) = [] := by
      apply List.filter_eq_nil_iff.mpr
      intro i _
      by_cases h : i.id = item.id <;> simp [h]
    rw [h1]
    simp
  · show ((s.folderItems.filter (fun i => i.id ≠ item.id)) ++ [item]).filter
        (fun i => i.id ≠ item.id) = s.folderItems.filter (fun i => i.id ≠ item.id)
    rw [List.filter_append, List.filter_filter]
    simp
  · exact List.getLast?_concat _

/-- C5: `setFormData` drops `undefined`-valued entries from the merge, so a
draft holding only defined values keeps holding only defined values; a key
supplied with a defined value is stored with that value; and the documented
example holds: merging `{foo: "bar", baz: undefined}` into the empty draft
stores only `{foo: "bar"}`. -/
theorem setFormData_spec :
    (∀ (s : StoreState) (data : JsRecord),
        (∀ kv ∈ s.formData, kv.2.isSome = true) →
        (∀ kv ∈ (setFormData data s).formData, kv.2.isSome = true)) ∧
    (∀ (s : StoreState) (data : JsRecord) (k : String) (v : String),
        data.lookup k = some (some v) →
        (setFormData data s).formData.lookup k = some (some v)) ∧
    (setFormData [("foo", some "bar"), ("baz", none)] initialState).formData
      = [("foo", some "bar")] := by
  refine ⟨?_, ?_, ?_⟩
  · intro s data hs
    apply objMerge_isSome _ _ hs
    intro kv hkv
    exact (List.mem_filter.mp hkv).2
  · intro s data k v h
    apply lookup_objMerge_present
    exact lookup_filter_first _ _ _ rfl _ h
  · rfl

/-- C5 witness: the documented example, evaluated. -/
theorem setFormData_spec_witness :
    ((("foo", (some "bar" : Option String))).2.isSome = true) ∧
    (setFormData [("foo", some "bar"), ("baz", none)] initialState).formData.lookup "foo"
      = some (some "bar") :=
  ⟨setFormData_spec.1 initialState [("foo", some "bar"), ("baz", none)]
      (fun kv h => absurd h (List.not_mem_nil kv))
      ("foo", some "bar") (by decide),
   setFormData_spec.2.1 initialState [("foo", some "bar"), ("baz", none)]
      "foo" "bar" (by decide)⟩

/-- C6: `reset()` replaces the whole container with `initialState` in one
step, whatever the prior state; it is idempotent, and all six persisted
entities are back at their documented defaults. -/
theorem reset_restores_defaults (s : StoreState) :
    applyOp Op.reset s = initialState ∧
    applyOp Op.reset (applyOp Op.reset s) = applyOp Op.reset s ∧
    (applyOp Op.reset s).persona = initialState.persona ∧
    (applyOp Op.reset s).profile = initialState.profile ∧
    (applyOp Op.reset s).folderItems = initialState.folderItems ∧
    (applyOp Op.reset s).formData = initialState.formData ∧
    (applyOp Op.reset s).preferences = initialState.preferences ∧
    (applyOp Op.reset s).completedDays = initialState.completedDays :=
  ⟨rfl, rfl, rfl, rfl, rfl, rfl, rfl, rfl⟩

/-- C10: `reset()` also restores the non-persisted `aiStatus` field to its
default `'idle'`, in every state. -/
theorem reset_aiStatus_idle (s : StoreState) :
    (applyOp Op.reset s).aiStatus = AiStatus.idle := rfl

/-- C9: each partial-merge mutation (`setPersona`, `setProfile`,
`setFormData`, `setPreferences`) merges field-wise into its own record only:
fields absent from the partial are unchanged, and every other entity of the
store is unchanged. -/
theorem partial_merge_frame (s : StoreState) (pp : PersonaUpdate)
    (pr : ProfileUpdate) (data : JsRecord) (pf : PreferencesUpdate) :
    ((setPersona pp s).profile = s.profile ∧
     (setPersona pp s).folderItems = s.folderItems ∧
     (setPersona pp s).formData = s.formData ∧
     (setPersona pp s).aiStatus = s.aiStatus ∧
     (setPersona pp s).preferences = s.preferences ∧
     (setPersona pp s).completedDays = s.completedDays ∧
     (pp.mode = none → (setPersona pp s).persona.mode = s.persona.mode) ∧
     (pp.colors = none → (setPersona pp s).persona.colors = s.persona.colors)) ∧
    ((setProfile pr s).persona = s.persona ∧
     (setProfile pr s).folderItems = s.folderItems ∧
     (setProfile pr s).formData = s.formData ∧
     (setProfile pr s).aiStatus = s.aiStatus ∧
     (setProfile pr s).preferences = s.preferences ∧
     (setProfile pr s).completedDays = s.completedDays ∧
     (pr.name = none → (setProfile pr s).profile.name = s.profile.name) ∧
     (pr.role = none → (setProfile pr s).profile.role = s.profile.role) ∧
     (pr.avatarSeed = none →
        (setProfile pr s).profile.avatarSeed = s.profile.avatarSeed) ∧
     (pr.verified = none → (setProfile pr s).profile.verified = s.profile.verified) ∧
     (pr.links = none → (setProfile pr s).profile.links = s.profile.links)) ∧
    ((setFormData data s).persona = s.persona ∧
     (setFormData data s).profile = s.profile ∧
     (setFormData data s).folderItems = s.folderItems ∧
     (setFormData data s).aiStatus = s.aiStatus ∧
     (setFormData data s).preferences = s.preferences ∧
     (setFormData data s).completedDays = s.completedDays ∧
     (∀ k : String, data.lookup k = none →
        (setFormData data s).formData.lookup k = s.formData.lookup k)) ∧
    ((setPreferences pf s).persona = s.persona ∧
     (setPreferences pf s).profile = s.profile ∧
     (setPreferences pf s).folderItems = s.folderItems ∧
     (setPreferences pf s).formData = s.formData ∧
     (setPreferences pf s).aiStatus = s.aiStatus ∧
     (setPreferences pf s).completedDays = s.completedDays ∧
     (pf.reduceMotion = none →
        (setPreferences pf s).preferences.reduceMotion = s.preferences.reduceMotion) ∧
     (pf.disableShaders = none →
        (setPreferences pf s).preferences.disableShaders = s.preferences.disableShaders) ∧
     (pf.theme = none → (setPreferences pf s).preferences.theme = s.preferences.theme) ∧
     (pf.soundEnabled = none →
        (setPreferences pf s).preferences.soundEnabled = s.preferences.soundEnabled)) := by
  refine ⟨⟨rfl, rfl, rfl, rfl, rfl, rfl, ?_, ?_⟩,
          ⟨rfl, rfl, rfl, rfl, rfl, rfl, ?_, ?_, ?_, ?_, ?_⟩,
          ⟨rfl, rfl, rfl, rfl, rfl, rfl, ?_⟩,
          ⟨rfl, rfl, rfl, rfl, rfl, rfl, ?_, ?_, ?_, ?_⟩⟩ <;>
    first
      | (intro h; simp [setPersona, setProfile, setPreferences, h])
      | (intro k h
         exact lookup_objMerge_absent _ _ _ (lookup_filter_none _ _ _ h))

/-- C9 witness: the frame conditions evaluated at empty partial updates. -/
theorem partial_merge_frame_witness :
    (setPersona { mode := none, colors := none } initialState).persona.mode
      = initialState.persona.mode ∧
    (setFormData [] initialState).formData.lookup "x"
      = initialState.formData.lookup "x" :=
  ⟨(partial_merge_frame initialState { mode := none, colors := none }
      { name := none, role := none, avatarSeed := none, verified := none, links := none }
      [] { reduceMotion := none, disableShaders := none, theme := none, soundEnabled := none }
      ).1.2.2.2.2.2.2.1 rfl,
   (partial_merge_frame initialState { mode := none, colors := none }
      { name := none, role := none, avatarSeed := none, verified := none, links := none }
      [] { reduceMotion := none, disableShaders := none, theme := none, soundEnabled := none }
      ).2.2.1.2.2.2.2.2.2 "x" rfl⟩

/-- C2 (counterexample): the comparator-less `.sort()` orders numbers as
decimal strings, so marking day 10 and then day 2 yields `[10, 2]`, which is
not in ascending numeric order. -/
theorem markDayComplete_sorted_counterexample :
    (runOps [Op.markDayComplete 10, Op.markDayComplete 2]).completedDays = [10, 2] ∧
    ¬ List.Sorted (· ≤ ·) ([10, 2] : List Nat) := by
  constructor
  · decide
  · decide

/-- C2 (amended): for every sequence of `markDayComplete(n)` calls starting
from the empty set, the resulting set contains exactly the distinct values
passed (membership matches the calls and there are no duplicates), regardless
of call order or duplicates, and a `markDayComplete` call with a day already
present is a no-op; when additionally every day passed is single-digit
(`≤ 9`, covering the app's range 1–8), the set is in strictly ascending
order. -/
theorem markDayComplete_spec :
    (∀ ds : List Nat,
      (∀ x : Nat, x ∈ (runOps (ds.map Op.markDayComplete)).completedDays ↔ x ∈ ds) ∧
      (runOps (ds.map Op.markDayComplete)).completedDays.Nodup ∧
      ((∀ d ∈ ds, d ≤ 9) →
        (runOps (ds.map Op.markDayComplete)).completedDays.Sorted (· < ·))) ∧
    (∀ (s : StoreState) (d : Nat), d ∈ s.completedDays → markDayComplete d s = s) := by
  constructor
  · intro ds
    rw [runOps_map_markDayComplete]
    have hmem : ∀ x, x ∈ ds.foldl (fun l d => mdcDays d l) [] ↔ x ∈ ds := by
      intro x
      rw [foldl_mdcDays_mem]
      simp
    have hnd : (ds.foldl (fun l d => mdcDays d l) []).Nodup :=
      foldl_mdcDays_nodup ds [] List.nodup_nil
    refine ⟨hmem, hnd, ?_⟩
    intro hds
    have hsorted : (ds.foldl (fun l d => mdcDays d l) []).Sorted strle :=
      foldl_mdcDays_sorted ds [] List.sorted_nil
    have hb : ∀ x ∈ ds.foldl (fun l d => mdcDays d l) [], x ≤ 9 :=
      fun x hx => hds x ((hmem x).mp hx)
    exact (sorted_le_of_sorted_strle hb hsorted).lt_of_le hnd
  · intro s d h
    show { s with completedDays := mdcDays d s.completedDays } = s
    rw [mdcDays_mem_eq h]

/-- C2 witness: the documented example `markDayComplete(3); markDayComplete(1);
markDayComplete(3)` yields a strictly ascending set containing 3. -/
theorem markDayComplete_spec_witness :
    (3 ∈ (runOps ([3, 1, 3].map Op.markDayComplete)).completedDays ↔
      3 ∈ ([3, 1, 3] : List Nat)) ∧
    (runOps ([3, 1, 3].map Op.markDayComplete)).completedDays.Nodup ∧
    (runOps ([3, 1, 3].map Op.markDayComplete)).completedDays.Sorted (· < ·) :=
  ⟨(markDayComplete_spec.1 [3, 1, 3]).1 3,
   (markDayComplete_spec.1 [3, 1, 3]).2.1,
   (markDayComplete_spec.1 [3, 1, 3]).2.2 (by decide)⟩

/-- C3 (counterexample): `markDayComplete` performs no range validation, so a
reachable state can hold a day outside `[1,8]`. -/
theorem completedDays_range_counterexample :
    99 ∈ (runOps [Op.markDayComplete 99]).completedDays ∧ ¬ (99 ≤ 8) := by
  constructor
  · decide
  · decide

/-- C3 (amended): in every state reachable by any sequence of mutations,
`completedDays` has no duplicates; and when every `markDayComplete` call in
the sequence used a day within `[1,8]`, every member lies within `[1,8]`. -/
theorem completedDays_invariant (ops : List Op) :
    (runOps ops).completedDays.Nodup ∧
    ((∀ op ∈ ops, opInRange op) →
      ∀ x ∈ (runOps ops).completedDays, 1 ≤ x ∧ x ≤ 8) :=
  ⟨runOps_completedDays_nodup ops, runOps_completedDays_range ops⟩

/-- C3 witness: the invariant evaluated after marking day 3. -/
theorem completedDays_invariant_witness :
    (runOps [Op.markDayComplete 3]).completedDays.Nodup ∧ (1 ≤ 3 ∧ 3 ≤ 8) :=
  ⟨(completedDays_invariant [Op.markDayComplete 3]).1,
   (completedDays_invariant [Op.markDayComplete 3]).2
     (by
       intro op hop
       have h := List.mem_singleton.mp hop
       subst h
       exact ⟨by decide, by decide⟩)
     3 (by decide)⟩

/-- C4 (counterexample): the day-completion selector is membership in
`completedDays`, and since `markDayComplete` accepts out-of-range days, a
reachable state makes the selector return `true` for a day outside `[1,8]`. -/
theorem isDayComplete_counterexample :
    isDayComplete 99 (runOps [Op.markDayComplete 99]) = true ∧ ¬ (99 ≤ 8) := by
  constructor
  · decide
  · decide

/-- C4 (amended): `isDayComplete(n)` is defined as membership of `n` in
`completedDays` (and, being a total function, never throws); in every state
reached using only in-range `markDayComplete` calls, it returns `false` for
every `n` outside `[1,8]`. -/
theorem isDayComplete_spec :
    (∀ (s : StoreState) (n : Nat), isDayComplete n s = s.completedDays.contains n) ∧
    (∀ ops : List Op, (∀ op ∈ ops, opInRange op) →
      ∀ n : Nat, ¬ (1 ≤ n ∧ n ≤ 8) → isDayComplete n (runOps ops) = false) := by
  refine ⟨fun s n => rfl, ?_⟩
  intro ops hops n hn
  unfold isDayComplete
  cases hc : (runOps ops).completedDays.contains n with
  | false => rfl
  | true =>
    exact (hn (runOps_completedDays_range ops hops n (List.elem_iff.mp hc))).elim

/-- C4 witness: day 99 is not complete in the initial state. -/
theorem isDayComplete_spec_witness :
    isDayComplete 99 (runOps []) = false :=
  isDayComplete_spec.2 [] (fun op hop => absurd hop (List.not_mem_nil op)) 99 (by decide)

/-! ### Round-trip lemmas for the persisted JSON encoding -/

theorem decodeList_map {α β : Type} (f : β → Option α) (g : α → β)
    (h : ∀ a, f (g a) = some a) : ∀ l : List α, decodeList f (l.map g) = some l := by
  intro l
  induction l with
  | nil => rfl
  | cons a t ih => simp [decodeList, h a, ih]

theorem decodeMode_encodeMode (m : PersonaMode) :
    decodeMode (encodeMode m) = some m := by
  cases m <;> rfl

theorem decodeTheme_encodeTheme (t : Theme) :
    decodeTheme (encodeTheme t) = some t := by
  cases t <;> rfl

theorem decodeItemType_encodeItemType (t : ItemType) :
    decodeItemType (encodeItemType t) = some t := by
  cases t <;> rfl

theorem decodeStrList_roundtrip (l : List String) :
    decodeStrList (Json.arr (l.map Json.str)) = some l := by
  show decodeList decodeStr (l.map Json.str) = some l
  exact decodeList_map decodeStr Json.str (fun _ => rfl) l

theorem decodePersona_roundtrip (p : Persona) :
    decodePersona (encodePersona p) = some p := by
  obtain ⟨m, c⟩ := p
  simp +decide [encodePersona, decodePersona, List.lookup, decodeMode_encodeMode,
    decodeStrList_roundtrip]

theorem decodeProfile_roundtrip (p : Profile) :
    decodeProfile (encodeProfile p) = some p := by
  obtain ⟨n, r, a, v, l⟩ := p
  simp +decide [encodeProfile, decodeProfile, List.lookup, decodeStr, decodeBool,
    decodeStrList_roundtrip]

theorem decodeFolderItem_roundtrip (it : FolderItem) :
    decodeFolderItem (encodeFolderItem it) = some it := by
  obtain ⟨i, n, t, u⟩ := it
  cases u with
  | none =>
    simp +decide [encodeFolderItem, decodeFolderItem, List.lookup, decodeStr,
      decodeItemType_encodeItemType]
  | some u =>
    simp +decide [encodeFolderItem, decodeFolderItem, List.lookup, decodeStr,
      decodeItemType_encodeItemType]

theorem decodeFormData_roundtrip :
    ∀ fd : JsRecord, (∀ kv ∈ fd, kv.2.isSome = true) →
      decodeFormData (encodeFormData fd) = some fd := by
  intro fd
  induction fd with
  | nil => intro _; rfl
  | cons kv t ih =>
    obtain ⟨k, v⟩ := kv
    intro h
    cases v with
    | none =>
      have := h (k, none) (List.mem_cons_self _ _)
      simp at this
    | some v =>
      have ih' := ih (fun kv hkv => h kv (List.mem_cons_of_mem _ hkv))
      simp only [encodeFormData, decodeFormData] at ih'
      simp only [encodeFormData, decodeFormData, List.filterMap_cons, Option.map_some']
      simp only [decodeList]
      rw [show decodeStr (Json.str v) = some v from rfl]
      simp only [Option.map_some']
      rw [ih']

theorem decodePreferences_roundtrip (p : Preferences) :
    decodePreferences (encodePreferences p) = some p := by
  obtain ⟨rm, ds, th, se⟩ := p
  simp +decide [encodePreferences, decodePreferences, List.lookup, decodeBool,
    decodeTheme_encodeTheme]

theorem decodePersisted_roundtrip (p : PersistedState)
    (h : ∀ kv ∈ p.formData, kv.2.isSome = true) :
    decodePersisted (encodePersisted p) = some p := by
  obtain ⟨pe, pr, fi, fd, pf, cd⟩ := p
  simp +decide [encodePersisted, decodePersisted, List.lookup,
    decodePersona_roundtrip, decodeProfile_roundtrip,
    decodeList_map decodeFolderItem encodeFolderItem decodeFolderItem_roundtrip,
    decodeFormData_roundtrip fd h,
    decodePreferences_roundtrip,
    decodeList_map decodeNum Json.num (fun _ => rfl)]

/-- C7: serializing the persisted subset selected by `partialize` (exactly the
six fields; `aiStatus` excluded) and deserializing it yields a value
structurally equal to the original subset.  The hypothesis states that the
`formData` record holds no `undefined` values, which is exactly what its
TypeScript type `Record<string, string>` guarantees. -/
theorem persist_roundtrip (s : StoreState)
    (hfd : ∀ kv ∈ s.formData, kv.2.isSome = true) :
    decodePersisted (encodePersisted (partialize s)) = some (partialize s) ∧
    (∀ st : AiStatus, partialize { s with aiStatus := st } = partialize s) :=
  ⟨decodePersisted_roundtrip (partialize s) hfd, fun _ => rfl⟩

/-- C7 witness: the round trip evaluated on the initial state's subset. -/
theorem persist_roundtrip_witness :
    decodePersisted (encodePersisted (partialize initialState))
      = some (partialize initialState) :=
  (persist_roundtrip initialState (fun kv h => absurd h (List.not_mem_nil kv))).1

/-- C8: loading at container creation from an absent value, unparsable JSON,
or JSON that does not match the expected shape yields the documented default
state; `loadStore` and `persistWrite` are total functions, so neither a read
nor a write failure surfaces an error to the caller. -/
theorem load_error_handling :
    loadStore none = initialState ∧
    loadStore (some none) = initialState ∧
    (∀ j : Json, decodePersisted j = none → loadStore (some (some j)) = initialState) ∧
    (∀ r : Except String Unit, persistWrite r = ()) := by
  refine ⟨rfl, rfl, ?_, ?_⟩
  · intro j h
    simp only [loadStore, h]
  · intro r
    cases r <;> rfl

/-- C8 witness: loading the JSON value `null` (wrong shape) yields the
default state. -/
theorem load_error_handling_witness :
    loadStore (some (some Json.null)) = initialState :=
  load_error_handling.2.2.1 Json.null rfl

end FluxStore
